import Mathlib

/-!
Verification of the easyaudiostream output-scheduling and capture code.

The Python modules `easyaudiostream/audio.py`, `easyaudiostream/mic.py` and
`easyaudiostream/_capabilities.py` are shallowly embedded below: pure
computations become Lean functions, the per-sink delivery loops become step
functions on explicit state records, wall-clock time is an explicit rational
parameter, and Python exceptions become `Except String`.
-/

namespace EasyAudioStream

/-- A pydub `AudioSegment`: raw PCM bytes plus its format metadata
(sample width in bytes, channel count, frame rate in Hz). Bytes are modelled
as natural numbers. -/
structure Segment where
  raw_data : List Nat
  sample_width : Nat
  channels : Nat
  frame_rate : Nat
deriving Repr, DecidableEq

/-- pydub duration in seconds: byte length over (sample_width * channels * frame_rate). -/
def Segment.duration_seconds (s : Segment) : ℚ :=
  (s.raw_data.length : ℚ) / ((s.sample_width * s.channels * s.frame_rate : ℕ) : ℚ)

/-! ## Sink selection (`_capabilities.py` and the module tail of `audio.py`) -/

/-- The two module-level attributes actually assigned in `_capabilities.py`:
`ffplay_available` (whether `subprocess.run(["ffplay", "-version"])` returned 0)
and `has_pyaudio` (whether `import pyaudio` succeeded). -/
structure Capabilities where
  ffplay_available : Bool
  has_pyaudio : Bool
deriving Repr, DecidableEq

/-- Python attribute lookup on the `_capabilities` module. `_capabilities.py`
assigns exactly the names `ffplay_available` and `has_pyaudio`; reading any
other attribute raises `AttributeError`, modelled as `none`. -/
def capAttr (c : Capabilities) : String → Option Bool
  | "ffplay_available" => some c.ffplay_available
  | "has_pyaudio" => some c.has_pyaudio
  | _ => none

/-- Import-time body of `_capabilities.py`. `ffplayRun` is the outcome of
`subprocess.run(["ffplay", "-version"], ...)`: `none` when the `ffplay`
executable is not resolvable, in which case `subprocess.run` raises
`FileNotFoundError` (there is no try/except around it); `some rc` is its
returncode. `pyaudioImport` is whether `import pyaudio` succeeds (that one is
wrapped in try/except in the source). -/
def capabilitiesInit (ffplayRun : Option Int) (pyaudioImport : Bool) :
    Except String Capabilities :=
  match ffplayRun with
  | none => .error "FileNotFoundError"
  | some rc => .ok ⟨rc == 0, pyaudioImport⟩

/-- The three sink variants of `audio.py`. -/
inductive ManagerKind
  | pyaudio
  | ffmpeg
  | pydub
deriving Repr, DecidableEq

/-- Module tail of `audio.py` choosing `_global_audio_manager`:
`if _capabilities.has_pyaudio: ... elif _capabilities.has_ffmpeg: ... else:
warnings.warn(...); ...`. Attribute reads go through `capAttr`; a missing
attribute raises. On success returns the chosen variant together with whether
the choppy-playback warning was emitted. -/
def selectGlobalAudioManager (c : Capabilities) : Except String (ManagerKind × Bool) :=
  match capAttr c "has_pyaudio" with
  | none => .error "AttributeError: has_pyaudio"
  | some true => .ok (.pyaudio, false)
  | some false =>
    match capAttr c "has_ffmpeg" with
    | none => .error "AttributeError: has_ffmpeg"
    | some true => .ok (.ffmpeg, false)
    | some false => .ok (.pydub, true)

/-- Whole module-initialization chain: import `_capabilities`, then run the
selector at the bottom of `audio.py`. -/
def moduleInit (ffplayRun : Option Int) (pyaudioImport : Bool) :
    Except String (ManagerKind × Bool) :=
  match capabilitiesInit ffplayRun pyaudioImport with
  | .error e => .error e
  | .ok c => selectGlobalAudioManager c

/-! ## FFMPEGAudioManager delivery loop (`audio.py` lines 86-111) -/

/-- Sleep duration computed by `FFMPEGAudioManager._thread_entrypoint` when the
queue is empty and `playing_until` is still in the future:
`time.sleep(max(min(0.05, remaining), remaining / 2))`. -/
def ffmpegIdleSleep (remaining : ℚ) : ℚ :=
  max (min (1/20) remaining) (remaining / 2)

/-- The module's silence block: `silence_bytes = b"\x00\x00" * 2400`
(the two-byte string `b"\x00\x00"` repeated 2400 times). -/
def silence_bytes : List Nat :=
  (List.replicate 2400 ([0, 0] : List Nat)).flatten

/-- State of the ffplay delivery thread. `queue` is the `queue.Queue` contents
(front = next `get`), `written` the bytes written to `ffplay.stdin` so far,
`delivered` the ghost trace of segments written in order, `flushes` the number
of `flush()` calls, `slept` the total time slept. -/
structure FFState where
  queue : List Segment
  written : List Nat
  delivered : List Segment
  playing_until : ℚ
  flushes : Nat
  slept : ℚ
deriving Repr, DecidableEq

/-- One iteration of the loop in the case where `q.get(block=False)` succeeds:
write the segment's raw bytes, flush, and advance `playing_until` by the
segment's duration. When the queue is empty this is the identity. -/
def ffmpegBusyStep (st : FFState) : FFState :=
  match st.queue with
  | [] => st
  | seg :: rest =>
    { queue := rest
      written := st.written ++ seg.raw_data
      delivered := st.delivered ++ [seg]
      playing_until := st.playing_until + seg.duration_seconds
      flushes := st.flushes + 1
      slept := st.slept }

/-- One full iteration of `FFMPEGAudioManager._thread_entrypoint` at wall-clock
time `now`. Nonempty queue: busy step. Empty queue with `playing_until` in the
future: sleep `ffmpegIdleSleep`. Otherwise: write the silence block, flush,
sleep 50 ms and reset `playing_until` to the current time (which, after the
50 ms sleep, is `now + 1/20` under the idealized zero-cost-write clock). -/
def ffmpegLoopStep (st : FFState) (now : ℚ) : FFState :=
  match st.queue with
  | _ :: _ => ffmpegBusyStep st
  | [] =>
    if now < st.playing_until then
      { st with slept := st.slept + ffmpegIdleSleep (st.playing_until - now) }
    else
      { st with
          written := st.written ++ silence_bytes
          flushes := st.flushes + 1
          slept := st.slept + 1/20
          playing_until := now + 1/20 }

/-- Run `n` consecutive busy iterations (the queue observed nonempty each time). -/
def ffmpegProcessBurst : Nat → FFState → FFState
  | 0, st => st
  | n + 1, st => ffmpegProcessBurst n (ffmpegBusyStep st)

/-- `queue.Queue.put`: producers append at the back. -/
def queuePut (q : List Segment) (s : Segment) : List Segment :=
  q ++ [s]

/-- State of the PyAudio delivery thread (`PyAudioAudioManager._thread_entrypoint`):
the queue, the bytes written to the PyAudio stream, and the ghost trace of
segments written in order. -/
structure PADeliveryState where
  queue : List Segment
  written : List Nat
  delivered : List Segment
deriving Repr, DecidableEq

/-- Byte size of a 500 ms pydub chunk of `seg`: 500 ms of frames times the
frame width in bytes. -/
def bytesPer500ms (seg : Segment) : Nat :=
  seg.frame_rate * 500 / 1000 * (seg.sample_width * seg.channels)

/-- Split a byte list into consecutive blocks of `n` bytes (the last block may
be shorter). Embeds the byte-level effect of `pydub.utils.make_chunks`. -/
def chunkBytes (n : Nat) (l : List Nat) : List (List Nat) :=
  if l = [] then []
  else if n = 0 then [l]
  else l.take n :: chunkBytes n (l.drop n)
termination_by l.length
decreasing_by
  have h1 : 0 < l.length := List.length_pos.mpr (by assumption)
  have h2 : 0 < n := Nat.pos_of_ne_zero (by assumption)
  simp only [List.length_drop]
  omega

/-- The writes issued for one dequeued segment:
`for chunk in make_chunks(segment, 500): self.stream.write(chunk.raw_data)`. -/
def pyaudioThreadWrites (seg : Segment) : List (List Nat) :=
  chunkBytes (bytesPer500ms seg) seg.raw_data

/-- The fixed startup sleep at the top of `PyAudioAudioManager._thread_entrypoint`
(`time.sleep(0.1)`), in seconds. -/
def pyaudioStartupDelay : ℚ := 1/10

/-- One iteration of the PyAudio delivery loop: `segment = self.q.get()`, then
write the segment in 500 ms chunks. When the queue is empty, `get` blocks;
modelled as the identity. -/
def pyaudioDeliverStep (st : PADeliveryState) : PADeliveryState :=
  match st.queue with
  | [] => st
  | seg :: rest =>
    { queue := rest
      written := st.written ++ (pyaudioThreadWrites seg).flatten
      delivered := st.delivered ++ [seg] }

/-- Run `n` iterations of the PyAudio delivery loop. -/
def pyaudioDeliverRun : Nat → PADeliveryState → PADeliveryState
  | 0, st => st
  | n + 1, st => pyaudioDeliverRun n (pyaudioDeliverStep st)

/-! ## PyAudioAudioManager play (`audio.py` lines 28-47) -/

/-- Arguments of `p.open(format=..., channels=..., rate=..., output=True)`. -/
structure StreamFmt where
  width : Nat
  channels : Nat
  rate : Nat
deriving Repr, DecidableEq

/-- Producer-side state of `PyAudioAudioManager`: the queue, the lazily-opened
stream, whether the delivery thread exists, plus ghost counters of thread
starts and stream opens. -/
structure PAMgr where
  q : List Segment
  stream : Option StreamFmt
  thread : Bool
  threadStarts : Nat
  streamOpens : Nat
deriving Repr, DecidableEq

/-- The pydub resampling collaborators used by `play`
(`set_frame_rate`, `set_channels`, `set_sample_width`); pydub itself is an
external dependency, so the embedding is parameterized over them. -/
structure PydubOps where
  set_frame_rate : Segment → Nat → Segment
  set_channels : Segment → Nat → Segment
  set_sample_width : Segment → Nat → Segment

/-- Format contract of the pydub collaborators: each setter sets its own
format field and preserves the other two. -/
def PydubOps.Lawful (ops : PydubOps) : Prop :=
  (∀ s r, (ops.set_frame_rate s r).frame_rate = r ∧
    (ops.set_frame_rate s r).channels = s.channels ∧
    (ops.set_frame_rate s r).sample_width = s.sample_width) ∧
  (∀ s c, (ops.set_channels s c).channels = c ∧
    (ops.set_channels s c).frame_rate = s.frame_rate ∧
    (ops.set_channels s c).sample_width = s.sample_width) ∧
  (∀ s w, (ops.set_sample_width s w).sample_width = w ∧
    (ops.set_sample_width s w).frame_rate = s.frame_rate ∧
    (ops.set_sample_width s w).channels = s.channels)

/-- The conversion both queue-backed sinks apply before enqueueing:
`segment.set_frame_rate(24000).set_channels(1).set_sample_width(2)`. -/
def toCanonicalPcm (ops : PydubOps) (seg : Segment) : Segment :=
  ops.set_sample_width (ops.set_channels (ops.set_frame_rate seg 24000) 1) 2

/-- A concrete lawful instance of the pydub collaborators that rewrites only
the format metadata; used to instantiate witnesses. -/
def metadataOnlyOps : PydubOps where
  set_frame_rate s r := { s with frame_rate := r }
  set_channels s c := { s with channels := c }
  set_sample_width s w := { s with sample_width := w }

/-- `PyAudioAudioManager.play`: convert to canonical PCM, enqueue the
converted segment, open the stream lazily from the converted segment's format
if not yet open, and start the delivery thread lazily if not yet started. -/
def PyAudioAudioManager.play (ops : PydubOps) (st : PAMgr) (seg : Segment) : PAMgr :=
  let pcm := toCanonicalPcm ops seg
  let st1 : PAMgr := { st with q := st.q ++ [pcm] }
  let st2 : PAMgr :=
    match st1.stream with
    | some f => { st1 with stream := some f }
    | none =>
      { st1 with
          stream := some ⟨pcm.sample_width, pcm.channels, pcm.frame_rate⟩
          streamOpens := st1.streamOpens + 1 }
  if st2.thread then st2
  else { st2 with thread := true, threadStarts := st2.threadStarts + 1 }

/-! ## PyDubAudioManager (`audio.py` lines 114-145) -/

/-- Matching pydub formats, under which `p + segment` is raw concatenation. -/
def Segment.sameFormat (a b : Segment) : Prop :=
  a.sample_width = b.sample_width ∧ a.channels = b.channels ∧ a.frame_rate = b.frame_rate

instance (a b : Segment) : Decidable (a.sameFormat b) := by
  unfold Segment.sameFormat
  infer_instance

/-- pydub concatenation of two matching-format segments. -/
def Segment.append (a b : Segment) : Segment :=
  { a with raw_data := a.raw_data ++ b.raw_data }

/-- State of `PyDubAudioManager`: the single pending-buffer slot, the
`threading.Event` signal, whether the thread exists, and a ghost counter of
thread starts. All `play` bookkeeping and the thread's take step run under
`self._lock`, so each is modelled as one atomic state transition. -/
structure PyDubMgr where
  pending_segment : Option Segment
  has_pending : Bool
  thread : Bool
  threadStarts : Nat
deriving Repr, DecidableEq

/-- `PyDubAudioManager.play`: start the thread if absent, then under the lock
merge onto the pending slot (concatenating if one is pending, else setting it
and signalling the event). -/
def PyDubAudioManager.play (st : PyDubMgr) (seg : Segment) : PyDubMgr :=
  let st1 : PyDubMgr :=
    if st.thread then st
    else { st with thread := true, threadStarts := st.threadStarts + 1 }
  match st1.pending_segment with
  | some p => { st1 with pending_segment := some (p.append seg) }
  | none => { st1 with pending_segment := some seg, has_pending := true }

/-- The locked take step of `PyDubAudioManager._thread_entrypoint`: read the
pending slot and, in the same critical section, clear it and the event.
Returns the taken segment. -/
def PyDubAudioManager.takePending (st : PyDubMgr) : PyDubMgr × Option Segment :=
  ({ st with pending_segment := none, has_pending := false }, st.pending_segment)

/-- One wake-up of the fallback thread: wait until the event is set, take the
pending buffer atomically, then call `pydub.playback.play` on it. Returns the
new state and the list of play-to-completion calls made. -/
def pydubThreadWake (st : PyDubMgr) : PyDubMgr × List Segment :=
  if st.has_pending then
    match PyDubAudioManager.takePending st with
    | (st2, some s) => (st2, [s])
    | (st2, none) => (st2, [])
  else (st, [])

/-! ## Capture loop (`mic.py` lines 14-43) -/

/-- State visible to one iteration of `PyAudioInputManagerBase._thread_entrypoint`:
`avail` is `self.stream.get_read_available()`, `pending` the bytes buffered in
the device stream, `frame_width` the bytes per frame (width * channels), `q`
the consumer queue, `reads` the ghost trace of `stream.read` calls (frame
count, exception_on_overflow flag) and `slept` the total time slept. -/
structure MicState where
  avail : Nat
  pending : List Nat
  frame_width : Nat
  q : List (List Nat)
  reads : List (Nat × Bool)
  slept : ℚ
deriving Repr, DecidableEq

/-- One iteration of the capture loop: if no frames are available, sleep 50 ms
and retry; otherwise read all currently-available frames in one
`stream.read(n_available, exception_on_overflow=False)` call and republish the
resulting frame, unmodified, to the consumer queue. -/
def micLoopIter (st : MicState) : MicState :=
  if st.avail = 0 then
    { st with slept := st.slept + 1/20 }
  else
    { st with
        avail := 0
        pending := st.pending.drop (st.avail * st.frame_width)
        reads := st.reads ++ [(st.avail, false)]
        q := st.q ++ [st.pending.take (st.avail * st.frame_width)] }

/-! ## PyAudioInputManagerAsync (`mic.py` lines 45-63, 89-97) -/

/-- State of `PyAudioInputManagerAsync`: the event loop stored at construction
(`self.loop = asyncio.get_event_loop()`) and the `asyncio.Queue` living on it.
Event loops are identified by numbers. -/
structure AsyncMicMgr where
  loop : Nat
  q : List (List Nat)
deriving Repr, DecidableEq

/-- `get_mic_stream_async` constructs the manager, which stores the event loop
current at the call. -/
def PyAudioInputManagerAsync.new (currentLoop : Nat) : AsyncMicMgr :=
  ⟨currentLoop, []⟩

/-- `_enqueue` from the capture thread: submit `self.q.put(frame)` to
`self.loop` via `run_coroutine_threadsafe` and block on `fut.result()` until
the put completes. Returns the new state and the loop the put was submitted
to; `captureTimeLoop`, the loop current on the capturing thread at call time,
is never consulted. -/
def PyAudioInputManagerAsync.enqueue (st : AsyncMicMgr) (frame : List Nat)
    (captureTimeLoop : Nat) : AsyncMicMgr × Nat :=
  ({ st with q := st.q ++ [frame] }, st.loop)

/-- Run a sequence of `_enqueue` calls, each frame paired with whatever loop
happens to be current on the capture thread at that moment. Returns the final
state and the list of loops the puts were submitted to. -/
def asyncEnqueueAll : AsyncMicMgr → List (List Nat × Nat) → AsyncMicMgr × List Nat
  | st, [] => (st, [])
  | st, (f, cap) :: rest =>
    ((asyncEnqueueAll (PyAudioInputManagerAsync.enqueue st f cap).1 rest).1,
      (PyAudioInputManagerAsync.enqueue st f cap).2 ::
        (asyncEnqueueAll (PyAudioInputManagerAsync.enqueue st f cap).1 rest).2)

/-! ## Missing-dependency stubs (`mic.py` lines 108-116) -/

/-- The `ImportError` message raised by `_missing` (the implicit concatenation
of the two source string literals). -/
def micMissingMessage : String :=
  "You must install PyAudio to record from the mic. You can install this with `pip install \"easyaudiostream[pyaudio]\"`."

/-- `_missing(*_, **__)`: accepts any positional and keyword arguments and
raises `ImportError(micMissingMessage)`. The raise is an in-process exception
propagated to the caller (`Except.error`), not a process exit. -/
def mic_missing (pos : List String) (kw : List (String × String)) :
    Except String Unit :=
  .error micMissingMessage

/-- When pyaudio is absent, `mic.py` binds
`get_mic_stream = get_mic_stream_async = list_mics = _missing`. -/
def get_mic_stream_absent : List String → List (String × String) → Except String Unit :=
  mic_missing

/-- The async capture entry point under a missing pyaudio: also `_missing`. -/
def get_mic_stream_async_absent : List String → List (String × String) → Except String Unit :=
  mic_missing

/-- The device-listing entry point under a missing pyaudio: also `_missing`. -/
def list_mics_absent : List String → List (String × String) → Except String Unit :=
  mic_missing

end EasyAudioStream

namespace EasyAudioStream

/-! ## Helper lemmas -/

/-- Concatenating the chunks recovers the original byte list: the chunked
writes lose and duplicate nothing. -/
theorem chunkBytes_flatten (n : Nat) (l : List Nat) :
    (chunkBytes n l).flatten = l := by
  rw [chunkBytes]
  by_cases h : l = []
  · simp [h]
  · rw [if_neg h]
    by_cases hn : n = 0
    · simp [hn]
    · rw [if_neg hn]
      rw [List.flatten_cons, chunkBytes_flatten n (l.drop n)]
      exact List.take_append_drop n l
termination_by l.length
decreasing_by
  have h1 : 0 < l.length := List.length_pos.mpr h
  have h2 : 0 < n := Nat.pos_of_ne_zero hn
  simp only [List.length_drop]
  omega

/-- Chunking the empty list yields no chunks. -/
theorem chunkBytes_nil (n : Nat) : chunkBytes n [] = [] := by
  rw [chunkBytes]
  simp

/-- Every chunk except the last has exactly `n` bytes: the sub-chunks are
fixed-size. -/
theorem chunkBytes_sizes (n : Nat) (l : List Nat) :
    ∀ c ∈ (chunkBytes n l).dropLast, c.length = n := by
  rw [chunkBytes]
  by_cases h : l = []
  · simp [h]
  · rw [if_neg h]
    by_cases hn : n = 0
    · simp [hn]
    · rw [if_neg hn]
      intro c hc
      rcases ht : chunkBytes n (l.drop n) with _ | ⟨b, t⟩
      · rw [ht] at hc
        simp at hc
      · rw [ht, List.dropLast_cons₂] at hc
        rcases List.mem_cons.mp hc with hc1 | hc2
        · have hd : l.drop n ≠ [] := by
            intro hnil
            rw [hnil, chunkBytes_nil] at ht
            exact List.noConfusion ht
          have hlen : n < l.length := by
            rcases Nat.lt_or_ge n l.length with h1 | h2
            · exact h1
            · exact absurd (List.drop_eq_nil_iff.mpr h2) hd
          rw [hc1]
          exact List.length_take_of_le (Nat.le_of_lt hlen)
        · have := chunkBytes_sizes n (l.drop n) c
          rw [ht] at this
          exact this hc2
termination_by l.length
decreasing_by
  have h1 : 0 < l.length := List.length_pos.mpr h
  have h2 : 0 < n := Nat.pos_of_ne_zero hn
  simp only [List.length_drop]
  omega

/-- The chunked writes for one segment concatenate back to its raw bytes. -/
theorem pyaudioThreadWrites_flatten (seg : Segment) :
    (pyaudioThreadWrites seg).flatten = seg.raw_data :=
  chunkBytes_flatten _ _

/-- Effect of `n` consecutive busy iterations of the ffplay delivery loop on a
queue holding `segs ++ rest`, where `n = segs.length`: the first `segs` are
dequeued in order, their raw bytes written back-to-back, each followed by a
flush, and `playing_until` advances by the sum of their durations. -/
theorem ffmpegProcessBurst_spec (segs : List Segment) (st : FFState)
    (rest : List Segment) (hq : st.queue = segs ++ rest) :
    ffmpegProcessBurst segs.length st =
      { queue := rest
        written := st.written ++ (segs.map Segment.raw_data).flatten
        delivered := st.delivered ++ segs
        playing_until := st.playing_until + (segs.map Segment.duration_seconds).sum
        flushes := st.flushes + segs.length
        slept := st.slept } := by
  induction segs generalizing st with
  | nil =>
    obtain ⟨q, w, del, pu, fl, sl⟩ := st
    simp only [List.nil_append] at hq
    subst hq
    simp [ffmpegProcessBurst]
  | cons s t ih =>
    obtain ⟨q, w, del, pu, fl, sl⟩ := st
    simp only at hq
    subst hq
    simp only [List.cons_append]
    rw [show ffmpegProcessBurst (s :: t).length ⟨s :: (t ++ rest), w, del, pu, fl, sl⟩ =
        ffmpegProcessBurst t.length
          (⟨t ++ rest, w ++ s.raw_data, del ++ [s],
            pu + s.duration_seconds, fl + 1, sl⟩ : FFState) from rfl,
      ih _ rfl]
    simp only [List.map_cons, List.flatten_cons, List.sum_cons,
      List.append_assoc, List.singleton_append, List.length_cons]
    congr 1
    · ring
    · omega

/-- Draining the whole PyAudio queue delivers every segment in order, writing
each one's bytes (in 500 ms chunks) back-to-back. -/
theorem pyaudioDeliverRun_spec (segs : List Segment) (st : PADeliveryState)
    (rest : List Segment) (hq : st.queue = segs ++ rest) :
    pyaudioDeliverRun segs.length st =
      { queue := rest
        written := st.written ++ (segs.map Segment.raw_data).flatten
        delivered := st.delivered ++ segs } := by
  induction segs generalizing st with
  | nil =>
    obtain ⟨q, w, del⟩ := st
    simp only [List.nil_append] at hq
    subst hq
    simp [pyaudioDeliverRun]
  | cons s t ih =>
    obtain ⟨q, w, del⟩ := st
    simp only at hq
    subst hq
    simp only [List.cons_append]
    rw [show pyaudioDeliverRun (s :: t).length ⟨s :: (t ++ rest), w, del⟩ =
        pyaudioDeliverRun t.length
          (⟨t ++ rest, w ++ (pyaudioThreadWrites s).flatten, del ++ [s]⟩ :
            PADeliveryState) from rfl,
      ih _ rfl]
    simp only [List.map_cons, List.flatten_cons, List.append_assoc,
      List.singleton_append, pyaudioThreadWrites_flatten]

/-- Serialized `play()` calls build the queue in call order (`queue.Queue.put`
appends at the back). -/
theorem queuePut_foldl (segs acc : List Segment) :
    List.foldl queuePut acc segs = acc ++ segs := by
  induction segs generalizing acc with
  | nil => simp
  | cons s t ih =>
    rw [List.foldl_cons, ih, queuePut, List.append_assoc, List.singleton_append]

/-! ## Claims C1-C3 -/

/-- C1: the claim says sink selection completes for every combination of
collaborator availability and yields one of the three variants without
raising. The code refutes this twice: with `ffplay` absent the unguarded
`subprocess.run` in `_capabilities.py` raises `FileNotFoundError` at import
time, and with pyaudio absent the selector reads `_capabilities.has_ffmpeg`,
an attribute `_capabilities.py` never defines (it defines `ffplay_available`),
raising `AttributeError`. This theorem evaluates the embedded module
initialization at both failing inputs, and shows the only surviving
combination (ffplay resolvable, pyaudio importable) picks the device sink. -/
theorem C1_selector_raises :
    moduleInit none true = .error "FileNotFoundError" ∧
    moduleInit (some 0) false = .error "AttributeError: has_ffmpeg" ∧
    moduleInit (some 1) false = .error "AttributeError: has_ffmpeg" ∧
    moduleInit (some 0) true = .ok (.pyaudio, false) := by
  refine ⟨rfl, rfl, rfl, rfl⟩

/-- C2 counterexample: the claim says the idle sleep never exceeds 0.05 s, but
at `remaining = 1` the code sleeps `max(min(0.05, 1), 1/2) = 0.5` seconds,
strictly more than 0.05 s. -/
theorem C2_sleep_counterexample :
    ffmpegIdleSleep 1 = 1/2 ∧ (1/20 : ℚ) < ffmpegIdleSleep 1 := by
  unfold ffmpegIdleSleep
  norm_num

/-- C2 amended: when the queue is empty and `remaining = playing_until - now`
is positive, the thread sleeps `max(min(0.05, remaining), remaining / 2)`
seconds; the sleep never exceeds `remaining` (so it never oversleeps past
`playing_until`), and it is at most 50 ms exactly when `remaining ≤ 100` ms. -/
theorem C2_sleep_amended (r : ℚ) (h : 0 < r) :
    ffmpegIdleSleep r = max (min (1/20) r) (r / 2) ∧
    ffmpegIdleSleep r ≤ r ∧
    (ffmpegIdleSleep r ≤ 1/20 ↔ r ≤ 1/10) := by
  refine ⟨rfl, ?_, ?_, ?_⟩
  · unfold ffmpegIdleSleep
    apply max_le
    · exact min_le_right _ _
    · linarith
  · intro hle
    have h2 : r / 2 ≤ 1/20 := le_trans (le_max_right _ _) hle
    linarith
  · intro hle
    unfold ffmpegIdleSleep
    apply max_le
    · exact min_le_left _ _
    · linarith

/-- Witness for C2 at `remaining = 1/16`. -/
theorem C2_sleep_amended_witness :
    (0 : ℚ) < 1/16 ∧
    (ffmpegIdleSleep (1/16) = max (min (1/20) (1/16)) (1/16 / 2) ∧
      ffmpegIdleSleep (1/16) ≤ 1/16 ∧
      (ffmpegIdleSleep (1/16) ≤ 1/20 ↔ (1/16 : ℚ) ≤ 1/10)) :=
  ⟨by norm_num, C2_sleep_amended (1/16) (by norm_num)⟩

/-- Flattening `n` copies of the two-byte zero block yields `2 * n` zero bytes. -/
lemma flatten_replicate_zero_pair (n : Nat) :
    (List.replicate n ([0, 0] : List Nat)).flatten = List.replicate (2 * n) 0 := by
  induction n with
  | zero => simp
  | succ k ih =>
    rw [List.replicate_succ, List.flatten_cons, ih,
      show 2 * (k + 1) = 2 * k + 1 + 1 by ring,
      List.replicate_succ, List.replicate_succ]
    rfl

/-- C3: the claim (and the code's own comment, which computes
`2 * 24000 / 20 bytes = 2400B` for 50 ms of silence) says the silence block is
2400 zero bytes, but `b"\x00\x00" * 2400` is 4800 zero bytes, i.e. 100 ms of
canonical-format silence. The rest of the idle branch matches the claim: the
silence block is written and flushed, the thread sleeps 50 ms, and
`playing_until` is reset to the current time. -/
theorem C3_silence_block_size :
    silence_bytes = List.replicate 4800 0 ∧
    silence_bytes.length = 4800 ∧
    2 * 24000 / 20 = 2400 ∧
    2400 < silence_bytes.length ∧
    (∀ st : FFState, ∀ now : ℚ, st.queue = [] → st.playing_until ≤ now →
      ffmpegLoopStep st now =
        { st with
            written := st.written ++ silence_bytes
            flushes := st.flushes + 1
            slept := st.slept + 1/20
            playing_until := now + 1/20 }) := by
  have hrep : silence_bytes = List.replicate 4800 0 := by
    unfold silence_bytes
    rw [flatten_replicate_zero_pair]
  refine ⟨hrep, by rw [hrep, List.length_replicate], by norm_num,
    by rw [hrep, List.length_replicate]; norm_num, ?_⟩
  intro st now hq hle
  unfold ffmpegLoopStep
  rw [hq]
  simp only []
  rw [if_neg (not_lt.mpr hle)]

/-- Witness for C3's quantified conjunct at a concrete idle state. -/
theorem C3_silence_block_size_witness :
    (FFState.queue ⟨[], [], [], 0, 0, 0⟩ = [] ∧
      FFState.playing_until ⟨[], [], [], 0, 0, 0⟩ ≤ (1 : ℚ)) ∧
    ffmpegLoopStep ⟨[], [], [], 0, 0, 0⟩ 1 =
      { (⟨[], [], [], 0, 0, 0⟩ : FFState) with
          written := ([] : List Nat) ++ silence_bytes
          flushes := 0 + 1
          slept := 0 + 1/20
          playing_until := (1 : ℚ) + 1/20 } :=
  ⟨⟨rfl, by norm_num⟩,
    C3_silence_block_size.2.2.2.2 ⟨[], [], [], 0, 0, 0⟩ 1 rfl (by norm_num)⟩

/-! ## Claims C4-C5 -/

/-- C4: over a burst of `N` consecutively dequeued buffers each of duration
`d` (the queue never observed empty in between), the ffplay delivery thread
writes each buffer's raw bytes back-to-back in order and `playing_until` ends
at its pre-burst value plus `N * d`. -/
theorem C4_burst_additive (st : FFState) (segs rest : List Segment) (d : ℚ)
    (hq : st.queue = segs ++ rest) (hd : ∀ s ∈ segs, s.duration_seconds = d) :
    (ffmpegProcessBurst segs.length st).playing_until =
      st.playing_until + (segs.length : ℚ) * d ∧
    (ffmpegProcessBurst segs.length st).written =
      st.written ++ (segs.map Segment.raw_data).flatten ∧
    (ffmpegProcessBurst segs.length st).delivered = st.delivered ++ segs := by
  rw [ffmpegProcessBurst_spec segs st rest hq]
  refine ⟨?_, rfl, rfl⟩
  have hmap : segs.map Segment.duration_seconds = List.replicate segs.length d := by
    have := List.eq_replicate_of_mem (a := d) (l := segs.map Segment.duration_seconds)
      (by intro b hb
          obtain ⟨s, hs, rfl⟩ := List.mem_map.mp hb
          exact hd s hs)
    rwa [List.length_map] at this
  rw [hmap, List.sum_replicate, nsmul_eq_mul]

/-- Witness for C4: two copies of a 2-second segment advance `playing_until`
from 0 to 4 and write the two payloads back-to-back. -/
theorem C4_burst_additive_witness :
    ((⟨[⟨[1, 2, 3, 4], 2, 1, 1⟩, ⟨[1, 2, 3, 4], 2, 1, 1⟩], [], [], 0, 0, 0⟩ :
        FFState).queue =
      [⟨[1, 2, 3, 4], 2, 1, 1⟩, (⟨[1, 2, 3, 4], 2, 1, 1⟩ : Segment)] ++ [] ∧
      (∀ s ∈ [⟨[1, 2, 3, 4], 2, 1, 1⟩, (⟨[1, 2, 3, 4], 2, 1, 1⟩ : Segment)],
        s.duration_seconds = 2)) ∧
    (ffmpegProcessBurst
        [⟨[1, 2, 3, 4], 2, 1, 1⟩, (⟨[1, 2, 3, 4], 2, 1, 1⟩ : Segment)].length
        ⟨[⟨[1, 2, 3, 4], 2, 1, 1⟩, ⟨[1, 2, 3, 4], 2, 1, 1⟩], [], [], 0, 0,
          0⟩).playing_until =
      (0 : ℚ) +
        (([⟨[1, 2, 3, 4], 2, 1, 1⟩,
            (⟨[1, 2, 3, 4], 2, 1, 1⟩ : Segment)].length : ℚ)) * 2 := by
  have hd : ∀ s ∈ [⟨[1, 2, 3, 4], 2, 1, 1⟩, (⟨[1, 2, 3, 4], 2, 1, 1⟩ : Segment)],
      s.duration_seconds = 2 := by
    intro s hs
    have heq : s = (⟨[1, 2, 3, 4], 2, 1, 1⟩ : Segment) := by
      rcases List.mem_cons.mp hs with h | h
      · exact h
      · exact List.mem_singleton.mp h
    rw [heq]
    norm_num [Segment.duration_seconds]
  exact ⟨⟨rfl, hd⟩, (C4_burst_additive _ _ [] 2 rfl hd).1⟩

/-- C5: for both queue-backed sinks (the PyAudio device sink and the ffplay
pipe sink), serialized `play()` calls enqueue in call order, and draining the
queue delivers exactly that sequence: no buffer dropped, duplicated or
reordered. Removal happens only in the delivery-loop step functions, which
model the sink's single delivery thread. -/
theorem C5_fifo_order (segs : List Segment) (t : ℚ) :
    List.foldl queuePut [] segs = segs ∧
    (ffmpegProcessBurst segs.length ⟨segs, [], [], t, 0, 0⟩).delivered = segs ∧
    (ffmpegProcessBurst segs.length ⟨segs, [], [], t, 0, 0⟩).queue = [] ∧
    (ffmpegProcessBurst segs.length ⟨segs, [], [], t, 0, 0⟩).written =
      (segs.map Segment.raw_data).flatten ∧
    (pyaudioDeliverRun segs.length ⟨segs, [], []⟩).delivered = segs ∧
    (pyaudioDeliverRun segs.length ⟨segs, [], []⟩).queue = [] ∧
    (pyaudioDeliverRun segs.length ⟨segs, [], []⟩).written =
      (segs.map Segment.raw_data).flatten := by
  have h1 := ffmpegProcessBurst_spec segs ⟨segs, [], [], t, 0, 0⟩ []
    (List.append_nil segs).symm
  have h2 := pyaudioDeliverRun_spec segs ⟨segs, [], []⟩ []
    (List.append_nil segs).symm
  rw [h1, h2]
  refine ⟨by simpa using queuePut_foldl segs [], by simp, rfl, by simp, by simp,
    rfl, by simp⟩

/-! ## Claim C6 -/

/-- Under the pydub format contract, the conversion applied before enqueueing
yields the canonical format: 2-byte samples, 1 channel, 24000 Hz. -/
theorem toCanonicalPcm_format (ops : PydubOps) (h : ops.Lawful) (seg : Segment) :
    (toCanonicalPcm ops seg).sample_width = 2 ∧
    (toCanonicalPcm ops seg).channels = 1 ∧
    (toCanonicalPcm ops seg).frame_rate = 24000 := by
  obtain ⟨h1, h2, h3⟩ := h
  unfold toCanonicalPcm
  refine ⟨(h3 _ _).1, ?_, ?_⟩
  · rw [(h3 _ _).2.2, (h2 _ _).1]
  · rw [(h3 _ _).2.1, (h2 _ _).2.1, (h1 _ _).1]

/-- Closed form of `PyAudioAudioManager.play`: the converted segment is
appended to the queue; the stream is kept if open and otherwise opened from
the converted segment's format; the thread flag becomes true, with the start
counter bumped only when the thread did not exist. -/
theorem PyAudioAudioManager.play_eq (ops : PydubOps) (st : PAMgr) (seg : Segment) :
    PyAudioAudioManager.play ops st seg =
      ⟨st.q ++ [toCanonicalPcm ops seg],
        some (st.stream.getD
          ⟨(toCanonicalPcm ops seg).sample_width, (toCanonicalPcm ops seg).channels,
            (toCanonicalPcm ops seg).frame_rate⟩),
        true,
        st.threadStarts + (if st.thread then 0 else 1),
        st.streamOpens + (if st.stream = none then 1 else 0)⟩ := by
  obtain ⟨q, stream, thread, ts, so⟩ := st
  cases stream <;> cases thread <;>
    simp [PyAudioAudioManager.play]

/-- C6: `PyAudioAudioManager.play` converts the buffer to the canonical format
(2-byte samples, 1 channel, 24000 Hz) and enqueues the converted buffer, never
the original; the stream is opened lazily on the first call using that format
and kept thereafter; the thread is started lazily exactly once; the delivery
thread writes each dequeued buffer in 500 ms sub-chunks (24000 bytes each at
the canonical format, all but the last exactly that size, concatenating back
to the buffer) after the fixed 100 ms startup sleep. -/
theorem C6_device_play (ops : PydubOps) (h : ops.Lawful) (st : PAMgr) (seg : Segment) :
    (toCanonicalPcm ops seg).sample_width = 2 ∧
    (toCanonicalPcm ops seg).channels = 1 ∧
    (toCanonicalPcm ops seg).frame_rate = 24000 ∧
    (PyAudioAudioManager.play ops st seg).q = st.q ++ [toCanonicalPcm ops seg] ∧
    (st.stream = none →
      (PyAudioAudioManager.play ops st seg).stream = some ⟨2, 1, 24000⟩ ∧
      (PyAudioAudioManager.play ops st seg).streamOpens = st.streamOpens + 1) ∧
    (∀ f, st.stream = some f →
      (PyAudioAudioManager.play ops st seg).stream = some f ∧
      (PyAudioAudioManager.play ops st seg).streamOpens = st.streamOpens) ∧
    (PyAudioAudioManager.play ops st seg).thread = true ∧
    (st.thread = false →
      (PyAudioAudioManager.play ops st seg).threadStarts = st.threadStarts + 1) ∧
    (st.thread = true →
      (PyAudioAudioManager.play ops st seg).threadStarts = st.threadStarts) ∧
    (pyaudioThreadWrites (toCanonicalPcm ops seg)).flatten =
      (toCanonicalPcm ops seg).raw_data ∧
    (∀ c ∈ (pyaudioThreadWrites (toCanonicalPcm ops seg)).dropLast,
      c.length = 24000) ∧
    pyaudioStartupDelay = 1/10 := by
  obtain ⟨hw, hc, hr⟩ := toCanonicalPcm_format ops h seg
  have hb : bytesPer500ms (toCanonicalPcm ops seg) = 24000 := by
    unfold bytesPer500ms
    rw [hw, hc, hr]
  refine ⟨hw, hc, hr, ?_, ?_, ?_, ?_, ?_, ?_, pyaudioThreadWrites_flatten _, ?_, rfl⟩
  · rw [PyAudioAudioManager.play_eq]
  · intro h0
    rw [PyAudioAudioManager.play_eq]
    refine ⟨?_, by simp [h0]⟩
    rw [h0]
    simp only [Option.getD_none]
    rw [hw, hc, hr]
  · intro f h0
    rw [PyAudioAudioManager.play_eq]
    constructor
    · rw [h0]
      simp
    · simp [h0]
  · rw [PyAudioAudioManager.play_eq]
  · intro h0
    rw [PyAudioAudioManager.play_eq]
    simp [h0]
  · intro h0
    rw [PyAudioAudioManager.play_eq]
    simp [h0]
  · intro c hc2
    have := chunkBytes_sizes (bytesPer500ms (toCanonicalPcm ops seg))
      (toCanonicalPcm ops seg).raw_data c
    rw [hb] at this
    apply this
    rw [show chunkBytes 24000 (toCanonicalPcm ops seg).raw_data =
      pyaudioThreadWrites (toCanonicalPcm ops seg) by rw [pyaudioThreadWrites, hb]]
    exact hc2

/-- Witness for C6 with the metadata-only pydub instance, an empty manager
state and a one-frame 8 kHz stereo segment. -/
theorem C6_device_play_witness :
    metadataOnlyOps.Lawful ∧
    (PyAudioAudioManager.play metadataOnlyOps ⟨[], none, false, 0, 0⟩
        ⟨[7, 8], 1, 2, 8000⟩).q =
      [] ++ [toCanonicalPcm metadataOnlyOps ⟨[7, 8], 1, 2, 8000⟩] ∧
    (toCanonicalPcm metadataOnlyOps ⟨[7, 8], 1, 2, 8000⟩).sample_width = 2 ∧
    (toCanonicalPcm metadataOnlyOps ⟨[7, 8], 1, 2, 8000⟩).channels = 1 ∧
    (toCanonicalPcm metadataOnlyOps ⟨[7, 8], 1, 2, 8000⟩).frame_rate = 24000 ∧
    (PyAudioAudioManager.play metadataOnlyOps ⟨[], none, false, 0, 0⟩
        ⟨[7, 8], 1, 2, 8000⟩).stream = some ⟨2, 1, 24000⟩ ∧
    (PyAudioAudioManager.play metadataOnlyOps ⟨[], none, false, 0, 0⟩
        ⟨[7, 8], 1, 2, 8000⟩).threadStarts = 0 + 1 := by
  have hl : metadataOnlyOps.Lawful :=
    ⟨fun s r => ⟨rfl, rfl, rfl⟩, fun s c => ⟨rfl, rfl, rfl⟩, fun s w => ⟨rfl, rfl, rfl⟩⟩
  have happ := C6_device_play metadataOnlyOps hl ⟨[], none, false, 0, 0⟩ ⟨[7, 8], 1, 2, 8000⟩
  exact ⟨hl, happ.2.2.2.1, happ.1, happ.2.1, happ.2.2.1,
    (happ.2.2.2.2.1 rfl).1, happ.2.2.2.2.2.2.2.1 rfl⟩

/-! ## Claim C7 -/

/-- C7: with pyaudio absent, every capture entry point
(`get_mic_stream`, `get_mic_stream_async`, `list_mics`) is bound to `_missing`
and, for any arguments, raises (never returns normally); the message names the
missing collaborator PyAudio and the `pip install` command to get it. The
raise propagates as an exception to the caller (`Except.error`), not as a
process exit. -/
theorem C7_capture_missing_dependency :
    (∀ pos kw,
      get_mic_stream_absent pos kw = .error micMissingMessage ∧
      get_mic_stream_async_absent pos kw = .error micMissingMessage ∧
      list_mics_absent pos kw = .error micMissingMessage) ∧
    (∃ a b : String, micMissingMessage = a ++ "PyAudio" ++ b) ∧
    (∃ a b : String, micMissingMessage = a ++ "pip install" ++ b) := by
  refine ⟨fun pos kw => ⟨rfl, rfl, rfl⟩, ?_, ?_⟩
  · exact ⟨"You must install ",
      " to record from the mic. You can install this with `pip install \"easyaudiostream[pyaudio]\"`.",
      rfl⟩
  · exact ⟨"You must install PyAudio to record from the mic. You can install this with `",
      " \"easyaudiostream[pyaudio]\"`.", rfl⟩

/-! ## Claim C8 -/

/-- C8: two `play` calls with matching-format buffers completing before the
fallback thread takes the pending slot leave the slot holding the
concatenation in arrival order; the thread's next wake-up then makes exactly
one play-to-completion call whose argument is that concatenation, and the
take step clears the slot and its event signal in the same critical section. -/
theorem C8_fallback_merge (st : PyDubMgr) (s1 s2 : Segment)
    (hp : st.pending_segment = none) (hf : s1.sameFormat s2) :
    (PyDubAudioManager.play (PyDubAudioManager.play st s1) s2).pending_segment =
      some (s1.append s2) ∧
    (PyDubAudioManager.play (PyDubAudioManager.play st s1) s2).has_pending = true ∧
    (pydubThreadWake
      (PyDubAudioManager.play (PyDubAudioManager.play st s1) s2)).2 =
      [s1.append s2] ∧
    (pydubThreadWake
      (PyDubAudioManager.play (PyDubAudioManager.play st s1) s2)).1.pending_segment =
      none ∧
    (pydubThreadWake
      (PyDubAudioManager.play (PyDubAudioManager.play st s1) s2)).1.has_pending =
      false ∧
    (s1.append s2).raw_data = s1.raw_data ++ s2.raw_data := by
  obtain ⟨p, hpend, thr, ts⟩ := st
  simp only at hp
  subst hp
  cases thr <;>
    exact ⟨rfl, rfl, rfl, rfl, rfl, rfl⟩

/-- Witness for C8: two 24 kHz mono segments merged before the thread wakes. -/
theorem C8_fallback_merge_witness :
    ((⟨none, false, false, 0⟩ : PyDubMgr).pending_segment = none ∧
      Segment.sameFormat ⟨[1, 2], 2, 1, 24000⟩ ⟨[3, 4], 2, 1, 24000⟩) ∧
    (pydubThreadWake
      (PyDubAudioManager.play
        (PyDubAudioManager.play ⟨none, false, false, 0⟩ ⟨[1, 2], 2, 1, 24000⟩)
        ⟨[3, 4], 2, 1, 24000⟩)).2 =
      [Segment.append ⟨[1, 2], 2, 1, 24000⟩ ⟨[3, 4], 2, 1, 24000⟩] := by
  have hf : Segment.sameFormat ⟨[1, 2], 2, 1, 24000⟩ ⟨[3, 4], 2, 1, 24000⟩ :=
    ⟨rfl, rfl, rfl⟩
  exact ⟨⟨rfl, hf⟩,
    (C8_fallback_merge ⟨none, false, false, 0⟩ _ _ rfl hf).2.2.1⟩

/-! ## Claim C9 -/

/-- C9: each iteration of the base capture loop either (available count zero)
sleeps 50 ms without reading and leaves the queue untouched, or (count
nonzero) performs exactly one read of exactly the available frame count with
`exception_on_overflow=False`, does not sleep, and republishes the read frame
to the consumer queue unmodified as one element (never re-chunked). -/
theorem C9_capture_iteration (st : MicState) :
    (st.avail = 0 →
      micLoopIter st = { st with slept := st.slept + 1/20 }) ∧
    (st.avail ≠ 0 →
      (micLoopIter st).reads = st.reads ++ [(st.avail, false)] ∧
      (micLoopIter st).q =
        st.q ++ [st.pending.take (st.avail * st.frame_width)] ∧
      (micLoopIter st).slept = st.slept ∧
      (st.pending.length = st.avail * st.frame_width →
        (micLoopIter st).q = st.q ++ [st.pending])) := by
  constructor
  · intro h0
    unfold micLoopIter
    rw [if_pos h0]
  · intro h0
    unfold micLoopIter
    rw [if_neg h0]
    refine ⟨rfl, rfl, rfl, ?_⟩
    intro hlen
    rw [List.take_of_length_le (le_of_eq hlen)]

/-- Witness for C9: three available frames of width 2 are read in one call and
republished as a single six-byte frame. -/
theorem C9_capture_iteration_witness :
    ((⟨3, [1, 2, 3, 4, 5, 6], 2, [], [], 0⟩ : MicState).avail ≠ 0 ∧
      (⟨3, [1, 2, 3, 4, 5, 6], 2, [], [], 0⟩ : MicState).pending.length = 3 * 2) ∧
    (micLoopIter ⟨3, [1, 2, 3, 4, 5, 6], 2, [], [], 0⟩).reads = [] ++ [(3, false)] ∧
    (micLoopIter ⟨3, [1, 2, 3, 4, 5, 6], 2, [], [], 0⟩).q = [] ++ [[1, 2, 3, 4, 5, 6]] ∧
    (micLoopIter ⟨3, [1, 2, 3, 4, 5, 6], 2, [], [], 0⟩).slept = 0 := by
  have happ := (C9_capture_iteration ⟨3, [1, 2, 3, 4, 5, 6], 2, [], [], 0⟩).2
    (by decide)
  exact ⟨⟨by decide, rfl⟩, happ.1, happ.2.2.2 rfl, happ.2.2.1⟩

/-! ## Claim C10 -/

/-- Running a sequence of capture-thread enqueues submits every put to the
loop stored in the manager, appends the frames to that loop's queue in order,
and never consults the loop current at capture time. -/
theorem asyncEnqueueAll_spec (frames : List (List Nat × Nat)) (st : AsyncMicMgr) :
    asyncEnqueueAll st frames =
      ({ st with q := st.q ++ frames.map Prod.fst },
        List.replicate frames.length st.loop) := by
  induction frames generalizing st with
  | nil =>
    obtain ⟨lp, q⟩ := st
    simp [asyncEnqueueAll]
  | cons fc rest ih =>
    obtain ⟨f, cap⟩ := fc
    obtain ⟨lp, q⟩ := st
    simp only [asyncEnqueueAll, PyAudioInputManagerAsync.enqueue]
    rw [ih]
    simp [List.replicate_succ]

/-- C10: `PyAudioInputManagerAsync` binds the event loop at construction time:
the manager stores the loop current when `get_mic_stream_async` is called, and
every captured frame is submitted to that stored loop regardless of the loop
current on the capture thread at capture time, with each put completing
(frame appended to the stored loop's queue, in order) before the capture
thread continues. -/
theorem C10_async_loop_binding (consLoop : Nat) (frames : List (List Nat × Nat)) :
    (PyAudioInputManagerAsync.new consLoop).loop = consLoop ∧
    (asyncEnqueueAll (PyAudioInputManagerAsync.new consLoop) frames).2 =
      List.replicate frames.length consLoop ∧
    (asyncEnqueueAll (PyAudioInputManagerAsync.new consLoop) frames).1.q =
      frames.map Prod.fst ∧
    (asyncEnqueueAll (PyAudioInputManagerAsync.new consLoop) frames).1.loop =
      consLoop := by
  rw [asyncEnqueueAll_spec]
  exact ⟨rfl, rfl, by simp [PyAudioInputManagerAsync.new], rfl⟩

end EasyAudioStream
